import Mathlib

/-
Verification of the data-ingestion and filtering/query engine of the
Colorado holiday-markets page (script embedded in the page source).

Embedding conventions:
* Strings are Lean `String`s; character-level scanning is done on `List Char`
  (structural recursion only, so every definition evaluates in the kernel).
* JS `Date` values are modelled as integer day numbers (days since the Unix
  epoch), using the standard civil-calendar conversion.  `new Date(y, m, d)`
  is `jsDate y m d`, which normalises out-of-range month/day exactly as JS
  does (overflowing days roll into later months/years).  The session clock is
  timezone-free: adding 86,400,000 ms is adding one day number (the source is
  deliberately DST-naive per its design).
* JS numbers are modelled by `JSNum`: NaN, signed infinity, or an exact
  rational.  `parseFloat` follows the ECMAScript grammar (longest valid
  prefix, optional sign, `Infinity`, decimal literal with optional exponent);
  binary-rounding of doubles is not modelled, which is irrelevant to the
  claims (only NaN-ness and zero-ness of ordinary literals are inspected).
* JS falsiness of a number (`x || null`) is `truthy`: NaN and 0 are falsy.
* A JS expression that would throw (dereferencing the undefined `targetDate`)
  is modelled by `Option`: `none` is the thrown error.
* `Array.prototype.sort` (required by ECMAScript to be stable) is modelled by
  a stable insertion sort over the source's comparator.
-/

set_option maxRecDepth 10000

-- ===========================================================================
-- Generic string helpers (JS String methods, on `List Char`)
-- ===========================================================================

/-- JS `String.prototype.trim` on a char list. -/
def trimL (l : List Char) : List Char :=
  ((l.dropWhile Char.isWhitespace).reverse.dropWhile Char.isWhitespace).reverse

/-- JS `String.prototype.trim`. -/
def jsTrim (s : String) : String := (trimL s.toList).asString

/-- JS `String.prototype.split` with a single-character separator. -/
def splitOnChar (c : Char) : List Char → List (List Char)
  | [] => [[]]
  | x :: xs =>
    match splitOnChar c xs with
    | [] => [[]]
    | h :: t => if x = c then [] :: h :: t else (x :: h) :: t

/-- JS `String.prototype.lastIndexOf` for a character (`none` = not found). -/
def lastIdxOf (c : Char) (l : List Char) : Option Nat :=
  (l.reverse.findIdx? (· = c)).map (fun j => l.length - 1 - j)

/-- Numeric value of a digit run (JS `parseInt` on a digit string). -/
def natOfDigits (l : List Char) : Nat :=
  l.foldl (fun n c => n * 10 + (c.toNat - '0'.toNat)) 0

/-- JS `str.match(/(\d+)/)`: value of the first (maximal) digit run. -/
def firstDigitRun (l : List Char) : Option Nat :=
  let r := (l.dropWhile (fun c => !c.isDigit)).takeWhile Char.isDigit
  if r.isEmpty then none else some (natOfDigits r)

/-- JS `String.prototype.toLowerCase` (ASCII). -/
def lowerStr (s : String) : String := (s.toList.map Char.toLower).asString

/-- `needle` occurs as a contiguous substring of `hay`. -/
def isInfixL (needle : List Char) : List Char → Bool
  | [] => needle.isPrefixOf []
  | c :: rest => needle.isPrefixOf (c :: rest) || isInfixL needle rest

/-- JS `hay.includes(needle)`. -/
def jsIncludes (hay needle : String) : Bool := isInfixL needle.toList hay.toList

-- ===========================================================================
-- JS numbers and `parseFloat`
-- ===========================================================================

/-- A JS number as far as the source inspects one: NaN, ±Infinity, or the
exact decimal value `mantissa * 10 ^ exp10` (binary rounding of doubles is
not modelled; the source only tests NaN-ness and zero-ness). -/
inductive JSNum where
  | nan : JSNum
  | inf : Bool → JSNum
  | val : Int → Int → JSNum
deriving DecidableEq, Repr

/-- JS truthiness of a number: NaN and 0 are falsy (`parseFloat(x) || null`).
A decimal `mantissa * 10 ^ exp10` is zero iff its mantissa is. -/
def truthy : JSNum → Bool
  | .nan => false
  | .inf _ => true
  | .val mantissa _ => mantissa != 0

/-- Exponent part of a float literal: `e`/`E`, optional sign, digits; not
consumed at all when no digits follow (longest-valid-prefix rule). -/
def floatExponent (r : List Char) : Int :=
  match r with
  | 'e' :: '+' :: ds =>
    if (ds.takeWhile Char.isDigit).isEmpty then 0 else (natOfDigits (ds.takeWhile Char.isDigit) : Int)
  | 'E' :: '+' :: ds =>
    if (ds.takeWhile Char.isDigit).isEmpty then 0 else (natOfDigits (ds.takeWhile Char.isDigit) : Int)
  | 'e' :: '-' :: ds =>
    if (ds.takeWhile Char.isDigit).isEmpty then 0 else -(natOfDigits (ds.takeWhile Char.isDigit) : Int)
  | 'E' :: '-' :: ds =>
    if (ds.takeWhile Char.isDigit).isEmpty then 0 else -(natOfDigits (ds.takeWhile Char.isDigit) : Int)
  | 'e' :: ds =>
    if (ds.takeWhile Char.isDigit).isEmpty then 0 else (natOfDigits (ds.takeWhile Char.isDigit) : Int)
  | 'E' :: ds =>
    if (ds.takeWhile Char.isDigit).isEmpty then 0 else (natOfDigits (ds.takeWhile Char.isDigit) : Int)
  | _ => 0

/-- ECMAScript `parseFloat`: skip leading whitespace, optional sign, then the
longest prefix that is `Infinity` or a decimal literal; NaN if none. -/
def parseFloat (s : String) : JSNum :=
  let l := s.toList.dropWhile Char.isWhitespace
  let neg : Bool := match l with | '-' :: _ => true | _ => false
  let l2 := match l with
    | '-' :: r => r
    | '+' :: r => r
    | r => r
  if "Infinity".toList.isPrefixOf l2 then JSNum.inf neg
  else
    let ip := l2.takeWhile Char.isDigit
    let r1 := l2.dropWhile Char.isDigit
    let fp := match r1 with
      | '.' :: r => r.takeWhile Char.isDigit
      | _ => []
    let r2 := match r1 with
      | '.' :: r => r.dropWhile Char.isDigit
      | r => r
    if ip.isEmpty ∧ fp.isEmpty then JSNum.nan
    else
      let mantissa : Int := (natOfDigits ip : Int) * (10 ^ fp.length : Nat) + natOfDigits fp
      JSNum.val (if neg then -mantissa else mantissa) (floatExponent r2 - fp.length)

-- ===========================================================================
-- Calendar model of JS `Date`
-- ===========================================================================

/-- Day number of a civil date (month `1..12`; `d` may be out of range and is
normalised linearly, exactly like JS `Date`). -/
def daysFromCivil (y m d : Int) : Int :=
  let yy : Int := y - (if m ≤ 2 then 1 else 0)
  let era : Int := yy.fdiv 400
  let yoe : Int := yy - era * 400
  let mp : Int := m + (if 2 < m then -3 else 9)
  let doy : Int := (153 * mp + 2).fdiv 5 + d - 1
  let doe : Int := yoe * 365 + yoe.fdiv 4 - yoe.fdiv 100 + doy
  era * 146097 + doe - 719468

/-- Civil date (year, month `1..12`, day) of a day number. -/
def civilFromDays (z0 : Int) : Int × Int × Int :=
  let z : Int := z0 + 719468
  let era : Int := z.fdiv 146097
  let doe : Int := z - era * 146097
  let yoe : Int := (doe - doe.fdiv 1460 + doe.fdiv 36524 - doe.fdiv 146096).fdiv 365
  let y : Int := yoe + era * 400
  let doy : Int := doe - (365 * yoe + yoe.fdiv 4 - yoe.fdiv 100)
  let mp : Int := (5 * doy + 2).fdiv 153
  let d : Int := doy - (153 * mp + 2).fdiv 5 + 1
  let m : Int := mp + (if mp < 10 then 3 else -9)
  (y + (if m ≤ 2 then 1 else 0), m, d)

/-- `new Date(y, m, d)` with JS's 0-based month, normalising overflow. -/
def jsDate (y m d : Int) : Int :=
  daysFromCivil (y + m.fdiv 12) (m.emod 12 + 1) d

/-- JS `Date.prototype.getFullYear`. -/
def getFullYear (t : Int) : Int := (civilFromDays t).1

/-- JS `Date.prototype.getMonth` (0-based). -/
def getMonth (t : Int) : Int := (civilFromDays t).2.1 - 1

/-- JS `Date.prototype.getDate`. -/
def getDate (t : Int) : Int := (civilFromDays t).2.2

/-- JS `Date.prototype.getDay` (0 = Sunday). -/
def getDay (t : Int) : Int := (t + 4) % 7

/-- The loop `for (d = new Date(a); d <= b; d.setDate(d.getDate()+1)) push(d)`:
all day numbers from `a` to `b` inclusive (empty when `b < a`). -/
def dateRange (a b : Int) : List Int :=
  if a ≤ b then (List.range (b - a + 1).toNat).map (fun (k : Nat) => a + (k : Int)) else []

/-- Component-wise date equality used throughout the source:
`x.getFullYear() === y.getFullYear() && x.getMonth() === y.getMonth() &&
x.getDate() === y.getDate()`. -/
def sameYMD (a b : Int) : Bool :=
  getFullYear a == getFullYear b && getMonth a == getMonth b && getDate a == getDate b

-- ===========================================================================
-- CSV line tokenizer (`parseCSVLine`)
-- ===========================================================================

def parseCSVLineAux : List Char → Bool → List Char → List String
  | [], _, cur => [cur.reverse.asString]
  | '"' :: '"' :: rest, true, cur => parseCSVLineAux rest true ('"' :: cur)
  | '"' :: rest, true, cur => parseCSVLineAux rest false cur
  | '"' :: rest, false, cur => parseCSVLineAux rest true cur
  | ',' :: rest, true, cur => parseCSVLineAux rest true (',' :: cur)
  | ',' :: rest, false, cur => cur.reverse.asString :: parseCSVLineAux rest false []
  | c :: rest, b, cur => parseCSVLineAux rest b (c :: cur)

/-- The source's `parseCSVLine`: split on commas outside double quotes,
`""` inside quotes is a literal quote. -/
def parseCSVLine (line : String) : List String :=
  parseCSVLineAux line.toList false []

-- ===========================================================================
-- Address city extractor (`extractCityFromAddress`)
-- ===========================================================================

/-- JS `\w`: `[A-Za-z0-9_]`. -/
def isWordChar (c : Char) : Bool := c.isAlpha || c.isDigit || c = '_'

/-- Scan for `/\b[A-Z]{2}\b\s*\d{5}/`: a word boundary on both sides of the
two capitals forces at least one whitespace before the five digits. -/
def stateZipBoundaryAux : Option Char → List Char → Bool
  | prev, c1 :: c2 :: rest =>
    ((match prev with | none => true | some p => !isWordChar p) && c1.isUpper && c2.isUpper &&
      (let ws := rest.takeWhile Char.isWhitespace
       let r2 := rest.dropWhile Char.isWhitespace
       1 ≤ ws.length && (r2.take 5).length = 5 && (r2.take 5).all Char.isDigit))
    || stateZipBoundaryAux (some c1) (c2 :: rest)
  | _, _ => false

/-- Test of `/\b[A-Z]{2}\b\s*\d{5}/` (the pattern used in the scan loop). -/
def stateZipBoundary (l : List Char) : Bool := stateZipBoundaryAux none l

def stateZipPlainAux : List Char → Bool
  | c1 :: c2 :: rest =>
    (c1.isUpper && c2.isUpper &&
      (let r2 := rest.dropWhile Char.isWhitespace
       (r2.take 5).length = 5 && (r2.take 5).all Char.isDigit))
    || stateZipPlainAux (c2 :: rest)
  | _ => false

/-- Test of `/[A-Z]{2}\s*\d{5}/` (the fallback pattern, no word boundaries). -/
def stateZipPlain (l : List Char) : Bool := stateZipPlainAux l

/-- Test of `/^[A-Z]{2}$/`. -/
def bareState (l : List Char) : Bool :=
  match l with
  | [c1, c2] => c1.isUpper && c2.isUpper
  | _ => false

/-- Test of `/^\d+\s/` (street-number-shaped candidate city). -/
def startsWithStreetNum (l : List Char) : Bool :=
  let ds := l.takeWhile Char.isDigit
  1 ≤ ds.length && (match l.drop ds.length with
    | c :: _ => c.isWhitespace
    | [] => false)

/-- The source's `extractCityFromAddress`: split on commas, scan from the end
for a state-shaped segment, take the preceding segment as city unless it
looks like a street number; fall back to the last/second-to-last segments;
otherwise `"Unknown"`. -/
def extractCityFromAddress (address : String) : String :=
  if address = "" ∨ jsTrim address = "" then "Unknown"
  else
    let parts := (splitOnChar ',' address.toList).map trimL
    let found := (parts.reverse.findIdx? (fun p => stateZipBoundary p || bareState p)).map
      (fun j => parts.length - 1 - j)
    let viaScan : Option String :=
      match found with
      | some i =>
        if 0 < i then
          let cityPart := (parts[i-1]?).getD []
          if cityPart ≠ [] ∧ !startsWithStreetNum cityPart then some cityPart.asString
          else none
        else none
      | none => none
    match viaScan with
    | some c => c
    | none =>
      if 2 ≤ parts.length then
        let lastPart := (parts[parts.length - 1]?).getD []
        if stateZipPlain lastPart || bareState lastPart then
          let cityPart := (parts[parts.length - 2]?).getD []
          if cityPart ≠ [] ∧ !startsWithStreetNum cityPart then cityPart.asString
          else "Unknown"
        else "Unknown"
      else "Unknown"

-- ===========================================================================
-- Date grammar (`parseMarketDates` and helpers)
-- ===========================================================================

/-- The source's `monthMap` dictionary. -/
def monthTable : List (List Char × Nat) :=
  [(['j','a','n'], 0), (['f','e','b'], 1), (['m','a','r'], 2), (['a','p','r'], 3),
   (['m','a','y'], 4), (['j','u','n'], 5), (['j','u','l'], 6), (['a','u','g'], 7),
   (['s','e','p'], 8), (['o','c','t'], 9), (['n','o','v'], 10), (['d','e','c'], 11)]

/-- The source's `monthMap[monthStr]` lookup on a lowercased 3-letter key. -/
def monthIdx (s : List Char) : Option Nat :=
  (monthTable.find? (fun q => q.1 == s)).map Prod.snd

/-- One attempted match of `(jan|...|dec)\.?\s+(\d+)` (case-insensitive;
`withDot = false` drops the optional dot, as in `parseSimpleDate`) anchored
at the head of the list. -/
def matchMonthDayAt (withDot : Bool) (l : List Char) : Option (Nat × Nat) :=
  match l with
  | c1 :: c2 :: c3 :: rest =>
    match monthIdx [c1.toLower, c2.toLower, c3.toLower] with
    | none => none
    | some m =>
      let rest1 := if withDot then
          (match rest with
           | '.' :: r => r
           | r => r)
        else rest
      let ws := rest1.takeWhile Char.isWhitespace
      let rest2 := rest1.dropWhile Char.isWhitespace
      let ds := rest2.takeWhile Char.isDigit
      if 1 ≤ ws.length ∧ 1 ≤ ds.length then some (m, natOfDigits ds) else none
  | _ => none

/-- Leftmost match of the month-day pattern (JS `String.prototype.match`). -/
def scanMonthDay (withDot : Bool) : List Char → Option (Nat × Nat)
  | [] => none
  | c :: rest =>
    match matchMonthDayAt withDot (c :: rest) with
    | some r => some r
    | none => scanMonthDay withDot rest

/-- The source's `parseDateWithMonth`: `new Date(2025, month, day)` from the
first `(month)\.?\s+(\d+)` match. -/
def parseDateWithMonth (l : List Char) : Option Int :=
  (scanMonthDay true l).map (fun p => jsDate 2025 p.1 p.2)

/-- The source's `parseSimpleDate`: same without the optional dot. -/
def parseSimpleDate (l : List Char) : Option Int :=
  (scanMonthDay false l).map (fun p => jsDate 2025 p.1 p.2)

/-- One comma-delimited fragment of the raw date text, as handled inside the
loop of `parseMarketDates`: pipe format, then dash format (split at the last
dash; right side as full month+day, else bare day with the start date's
month), then single date. -/
def parseFragment (l : List Char) : List Int :=
  if l.contains '|' then
    let parts := (splitOnChar '|' l).map trimL
    let s0 := (parts[0]?).getD []
    let s1 := (parts[1]?).getD []
    if s0 ≠ [] ∧ s1 ≠ [] then
      match parseSimpleDate s0, parseSimpleDate s1 with
      | some sd, some ed => dateRange sd ed
      | _, _ => []
    else []
  else if l.contains '-' then
    match lastIdxOf '-' l with
    | some p =>
      if 0 < p then
        let left := trimL (l.take p)
        let right := trimL (l.drop (p + 1))
        match parseDateWithMonth left with
        | some sd =>
          match parseDateWithMonth right with
          | some ed => dateRange sd ed
          | none =>
            match firstDigitRun right with
            | some dv => dateRange sd (jsDate 2025 (getMonth sd) dv)
            | none => []
        | none => []
      else []
    | none => []
  else
    match parseDateWithMonth l with
    | some d => [d]
    | none => []

/-- The source's `parseMarketDates`: split on commas, trim, parse each
fragment independently and concatenate. -/
def parseMarketDates (s : String) : List Int :=
  ((splitOnChar ',' s.toList).map trimL).flatMap parseFragment

/-- Specification helper: the day numerals the parser extracts from one
fragment (used to state the fixed-year property). -/
def fragmentDayNums (l : List Char) : List Nat :=
  if l.contains '|' then
    let parts := (splitOnChar '|' l).map trimL
    let s0 := (parts[0]?).getD []
    let s1 := (parts[1]?).getD []
    if s0 ≠ [] ∧ s1 ≠ [] then
      (match scanMonthDay false s0 with | some q => [q.2] | none => []) ++
      (match scanMonthDay false s1 with | some q => [q.2] | none => [])
    else []
  else if l.contains '-' then
    match lastIdxOf '-' l with
    | some p =>
      if 0 < p then
        let left := trimL (l.take p)
        let right := trimL (l.drop (p + 1))
        (match scanMonthDay true left with | some q => [q.2] | none => []) ++
        (match scanMonthDay true right with
         | some q => [q.2]
         | none => (match firstDigitRun right with | some dv => [dv] | none => []))
      else []
    | none => []
  else
    match scanMonthDay true l with
    | some q => [q.2]
    | none => []

/-- Specification helper: all day numerals the parser extracts from a raw
date string. -/
def dayNumbers (s : String) : List Nat :=
  ((splitOnChar ',' s.toList).map trimL).flatMap fragmentDayNums

-- ===========================================================================
-- Market records (`parseCSV`)
-- ===========================================================================

structure Market where
  name : String
  lat : JSNum
  lon : JSNum
  region : String
  city : String
  zipCode : String
  address : String
  date : String
  cost : String
  website : String
  description : String
  dates : List Int
deriving DecidableEq, Repr

/-- `values[i]?.trim() || dflt`. -/
def fieldOr (values : List String) (i : Nat) (dflt : String) : String :=
  let t := jsTrim ((values[i]?).getD "")
  if t = "" then dflt else t

/-- One iteration of the `parseCSV` loop: tokenize the line, skip it when it
has fewer than 3 tokens or a blank name, build the record, and keep it only
when both coordinates are truthy (`parseFloat(x) || null` is non-null). -/
def rowToMarket (line : String) : Option Market :=
  let values := parseCSVLine line
  if values.length < 3 ∨ jsTrim ((values[0]?).getD "") = "" then none
  else
    let address := fieldOr values 5 ""
    let latN := parseFloat ((values[1]?).getD "")
    let lonN := parseFloat ((values[2]?).getD "")
    let date := fieldOr values 6 ""
    if truthy latN ∧ truthy lonN then
      some {
        name := fieldOr values 0 "",
        lat := latN,
        lon := lonN,
        region := fieldOr values 3 "Unknown",
        city := extractCityFromAddress address,
        zipCode := fieldOr values 4 "",
        address := address,
        date := date,
        cost := fieldOr values 7 "Free",
        website := fieldOr values 8 "",
        description := fieldOr values 9 "",
        dates := parseMarketDates date }
    else none

/-- Data rows of the CSV text: everything after the header line (empty when
there are fewer than two lines). -/
def csvDataLines (csv : String) : List String :=
  let lines := (splitOnChar '\n' (trimL csv.toList)).map List.asString
  if lines.length < 2 then [] else lines.drop 1

/-- The source's `parseCSV`. -/
def parseCSV (csv : String) : List Market :=
  (csvDataLines csv).filterMap rowToMarket

-- ===========================================================================
-- Session state and date filters
-- ===========================================================================

/-- The date-relevant part of the global `state`: `today`, `tomorrow`
(= now + 86,400,000 ms), and the weekend window set by
`calculateWeekendDates`. -/
structure SessionState where
  today : Int
  tomorrow : Int
  weekendStart : Int
  weekendEnd : Int
deriving Repr

/-- The source's `calculateWeekendDates`:
`daysUntilSaturday = (6 - dayOfWeek + 7) % 7 || 7`, start = today plus that
many days, end = start plus one day. -/
def calculateWeekendDates (t : Int) : Int × Int :=
  let w := getDay t
  let r := (6 - w + 7) % 7
  let du := if r = 0 then 7 else r
  (t + du, t + du + 1)

/-- Session state as initialised at startup from a given "today". -/
def mkSession (t : Int) : SessionState :=
  { today := t, tomorrow := t + 1,
    weekendStart := (calculateWeekendDates t).1,
    weekendEnd := (calculateWeekendDates t).2 }

/-- The source's `marketIsOpenOnDate`.  `none` models the TypeError thrown
when `dateFilter` matches no branch and the callback dereferences the
undefined `targetDate` (reached only when `dates` is non-empty). -/
def marketIsOpenOnDate (market : Market) (dateFilter : String) (st : SessionState) : Option Bool :=
  if market.dates.isEmpty then some true
  else if dateFilter = "today" then
    some (market.dates.any (fun d => sameYMD d st.today))
  else if dateFilter = "tomorrow" then
    some (market.dates.any (fun d => sameYMD d st.tomorrow))
  else if dateFilter = "weekend" then
    some ((dateRange st.weekendStart st.weekendEnd).any
      (fun d => market.dates.any (fun md => sameYMD md d)))
  else none

-- ===========================================================================
-- Filtering and sorting (`applyFilters`, `sortFilteredMarkets`)
-- ===========================================================================

structure FilterState where
  search : String
  city : String
  dateFilter : String
deriving Repr

/-- `matchesSearch` in `applyFilters`: case-insensitive substring match
against name, address or description. -/
def matchesSearch (search : String) (m : Market) : Bool :=
  jsIncludes (lowerStr m.name) (lowerStr search) ||
  jsIncludes (lowerStr m.address) (lowerStr search) ||
  jsIncludes (lowerStr m.description) (lowerStr search)

/-- `matchesCity` in `applyFilters`: empty filter passes all, otherwise exact
equality. -/
def matchesCity (city : String) (m : Market) : Bool :=
  city == "" || m.city == city

/-- The whole filter predicate of `applyFilters` for one record; `none` when
the date predicate throws. -/
def recordPassesFilters (st : SessionState) (fs : FilterState) (m : Market) : Option Bool :=
  let md : Option Bool :=
    if fs.dateFilter ≠ "" then marketIsOpenOnDate m fs.dateFilter st else some true
  md.map (fun b => matchesSearch fs.search m && matchesCity fs.city m && b)

/-- `Array.prototype.filter` with a callback that can throw. -/
def filterFallible (p : α → Option Bool) : List α → Option (List α)
  | [] => some []
  | x :: xs =>
    match p x with
    | none => none
    | some b =>
      match filterFallible p xs with
      | none => none
      | some ys => some (if b then x :: ys else ys)

/-- The sort key of `sortFilteredMarkets` (`none` for an unknown column,
whose comparator returns 0 for every pair). -/
def sortKeyVal (col : String) (m : Market) : Option String :=
  if col = "name" then some (lowerStr m.name)
  else if col = "date" then some (lowerStr m.date)
  else if col = "city" then some (lowerStr m.city)
  else none

/-- JS string comparison `a < b` (lexicographic by code unit). -/
def ltL : List Char → List Char → Bool
  | [], [] => false
  | [], _ :: _ => true
  | _ :: _, [] => false
  | a :: as, b :: bs => if a < b then true else if b < a then false else ltL as bs

/-- JS `a < b` on strings. -/
def strLt (a b : String) : Bool := ltL a.toList b.toList

/-- The comparator of `sortFilteredMarkets`. -/
def compareMarkets (col : String) (asc : Bool) (a b : Market) : Int :=
  match sortKeyVal col a, sortKeyVal col b with
  | some av, some bv =>
    if strLt av bv then (if asc then -1 else 1)
    else if strLt bv av then (if asc then 1 else -1)
    else 0
  | _, _ => 0

def insertSorted (le : α → α → Bool) (x : α) : List α → List α
  | [] => [x]
  | y :: ys => if le x y then x :: y :: ys else y :: insertSorted le x ys

/-- A stable sort (insertion sort), modelling the stable
`Array.prototype.sort` required by ECMAScript. -/
def insertionSort (le : α → α → Bool) : List α → List α
  | [] => []
  | x :: xs => insertSorted le x (insertionSort le xs)

/-- The source's `sortFilteredMarkets` applied to a list. -/
def sortFilteredMarkets (col : String) (asc : Bool) (l : List Market) : List Market :=
  insertionSort (fun a b => decide (compareMarkets col asc a b ≤ 0)) l

/-- The source's `applyFilters`: filter by search, city and date filter, then
sort; `none` when the date predicate throws on some record. -/
def applyFilters (st : SessionState) (fs : FilterState) (col : String) (asc : Bool)
    (ms : List Market) : Option (List Market) :=
  (filterFallible (recordPassesFilters st fs) ms).map (sortFilteredMarkets col asc)

-- Sample records for the spec's filter-conjunction scenario.

def marketA : Market :=
  { name := "Mile High Mercado", lat := JSNum.val 39 0, lon := JSNum.val (-105) 0,
    region := "Denver Metro", city := "Denver", zipCode := "80202",
    address := "Denver, CO 80202", date := "Dec. 13", cost := "Free",
    website := "", description := "", dates := [jsDate 2025 11 13] }

def marketB : Market :=
  { name := "Boulder Bazaar", lat := JSNum.val 40 0, lon := JSNum.val (-105) 0,
    region := "Boulder County", city := "Boulder", zipCode := "80302",
    address := "Boulder, CO 80302", date := "", cost := "Free",
    website := "", description := "", dates := [] }

-- ===========================================================================
-- Helper lemmas: date ranges and the 2025 calendar
-- ===========================================================================

theorem mem_dateRange {n a b : Int} (h : n ∈ dateRange a b) : a ≤ n ∧ n ≤ b := by
  unfold dateRange at h
  split at h
  · simp only [List.mem_map, List.mem_range] at h
    obtain ⟨k, hk, rfl⟩ := h
    omega
  · simp at h

theorem dateRange_empty_of_lt {a b : Int} (h : b < a) : dateRange a b = [] := by
  unfold dateRange
  rw [if_neg (by omega)]

theorem dateRange_adjacent (a : Int) : dateRange a (a + 1) = [a, a + 1] := by
  unfold dateRange
  rw [if_pos (by omega)]
  have h2 : (a + 1 - a + 1).toNat = 2 := by omega
  rw [h2]
  simp [List.range_succ]

theorem jsDate2025_bounds : ∀ m : Nat, m < 12 → ∀ j : Nat, j < 31 →
    20089 ≤ jsDate 2025 (m : Int) ((j : Int) + 1) ∧
    jsDate 2025 (m : Int) ((j : Int) + 1) ≤ 20453 := by decide

theorem getFullYear_of_between {n : Int} (h1 : 20089 ≤ n) (h2 : n ≤ 20453) :
    getFullYear n = 2025 ∧ 0 ≤ getMonth n ∧ getMonth n < 12 := by
  have table : ∀ k : Nat, k < 365 →
      getFullYear (20089 + (k : Int)) = 2025 ∧ 0 ≤ getMonth (20089 + (k : Int)) ∧
      getMonth (20089 + (k : Int)) < 12 := by decide
  have hn : n = 20089 + ((n - 20089).toNat : Int) := by omega
  rw [hn]
  exact table _ (by omega)

theorem jsDate2025_bounds_int {mo dv : Int} (h0 : 0 ≤ mo) (h1 : mo < 12)
    (h2 : 1 ≤ dv) (h3 : dv ≤ 31) :
    20089 ≤ jsDate 2025 mo dv ∧ jsDate 2025 mo dv ≤ 20453 := by
  have := jsDate2025_bounds mo.toNat (by omega) (dv - 1).toNat (by omega)
  have e1 : ((mo.toNat : Nat) : Int) = mo := by omega
  have e2 : (((dv - 1).toNat : Nat) : Int) + 1 = dv := by omega
  rw [e1, e2] at this
  exact this

theorem jsDate_day_sub (y m a b : Int) : jsDate y m a - jsDate y m b = a - b := by
  unfold jsDate daysFromCivil
  dsimp only
  split <;> split <;> ring

-- ===========================================================================
-- Helper lemmas: month scanning
-- ===========================================================================

theorem monthIdx_lt_twelve {s : List Char} {m : Nat} (h : monthIdx s = some m) : m < 12 := by
  unfold monthIdx at h
  cases hf : monthTable.find? (fun q => q.1 == s) with
  | none => rw [hf] at h; exact Option.noConfusion h
  | some q =>
    rw [hf] at h
    injection h with h2
    have hq : q ∈ monthTable := List.mem_of_find?_eq_some hf
    have hall : ∀ r ∈ monthTable, r.2 < 12 := by decide
    have := hall q hq
    omega

theorem matchMonthDayAt_month_lt {w : Bool} {l : List Char} {m d : Nat}
    (h : matchMonthDayAt w l = some (m, d)) : m < 12 := by
  unfold matchMonthDayAt at h
  split at h
  · rename_i c1 c2 c3 rest
    cases hmi : monthIdx [c1.toLower, c2.toLower, c3.toLower] with
    | none => rw [hmi] at h; exact Option.noConfusion h
    | some mv =>
      rw [hmi] at h
      have hlt := monthIdx_lt_twelve hmi
      dsimp only at h
      repeat' split at h
      all_goals
        first
          | exact Option.noConfusion h
          | (injection h with h1; injection h1 with h2 h3; omega)
  · exact Option.noConfusion h

theorem scanMonthDay_month_lt {w : Bool} {l : List Char} {m d : Nat}
    (h : scanMonthDay w l = some (m, d)) : m < 12 := by
  induction l with
  | nil => simp [scanMonthDay] at h
  | cons c rest ih =>
    unfold scanMonthDay at h
    cases hm : matchMonthDayAt w (c :: rest) with
    | some r =>
      rw [hm] at h
      simp only [Option.some.injEq] at h
      subst h
      exact matchMonthDayAt_month_lt hm
    | none =>
      rw [hm] at h
      exact ih h

-- ===========================================================================
-- Helper lemmas: stable sort
-- ===========================================================================

theorem mem_insertSorted (le : α → α → Bool) (x a : α) (l : List α) :
    a ∈ insertSorted le x l ↔ a = x ∨ a ∈ l := by
  induction l with
  | nil => simp [insertSorted]
  | cons y ys ih =>
    unfold insertSorted
    split
    · simp [or_comm, or_assoc, or_left_comm]
    · simp only [List.mem_cons, ih]
      tauto

theorem mem_insertionSort (le : α → α → Bool) (a : α) (l : List α) :
    a ∈ insertionSort le l ↔ a ∈ l := by
  induction l with
  | nil => simp [insertionSort]
  | cons x xs ih =>
    unfold insertionSort
    rw [mem_insertSorted, ih]
    simp

theorem filter_insertSorted {le : α → α → Bool} {p : α → Bool}
    (hp : ∀ a b, p a = true → p b = true → le a b = true) (x : α) (l : List α) :
    (insertSorted le x l).filter p =
      (if p x then [x] else []) ++ l.filter p := by
  induction l with
  | nil => cases hx : p x <;> simp [insertSorted, List.filter_cons, hx]
  | cons y ys ih =>
    unfold insertSorted
    split
    · rename_i hle
      cases hx : p x <;> simp [List.filter_cons, hx]
    · rename_i hnle
      rw [List.filter_cons, List.filter_cons, ih]
      cases hx : p x with
      | false => simp
      | true =>
        have hy : p y = false := by
          cases hyv : p y with
          | false => rfl
          | true => exact absurd (hp x y hx hyv) (by simpa using hnle)
        simp [hy]

theorem filter_insertionSort {le : α → α → Bool} {p : α → Bool}
    (hp : ∀ a b, p a = true → p b = true → le a b = true) (l : List α) :
    (insertionSort le l).filter p = l.filter p := by
  induction l with
  | nil => rfl
  | cons x xs ih =>
    unfold insertionSort
    rw [filter_insertSorted hp]
    cases hx : p x <;> simp [List.filter, hx, ih]

-- ===========================================================================
-- Helper lemmas: fallible filter
-- ===========================================================================

theorem filterFallible_total {p : α → Option Bool} {l : List α}
    (h : ∀ x ∈ l, (p x).isSome = true) :
    ∃ v, filterFallible p l = some v ∧ ∀ m, m ∈ v ↔ m ∈ l ∧ p m = some true := by
  induction l with
  | nil => exact ⟨[], rfl, by simp⟩
  | cons x xs ih =>
    have hx := h x (by simp)
    obtain ⟨b, hb⟩ := Option.isSome_iff_exists.mp hx
    obtain ⟨v, hv, hmem⟩ := ih (fun y hy => h y (by simp [hy]))
    refine ⟨if b then x :: v else v, ?_, ?_⟩
    · unfold filterFallible
      rw [hb, hv]
    · intro m
      cases b with
      | true =>
        rw [if_pos rfl]
        simp only [List.mem_cons, hmem]
        constructor
        · rintro (rfl | ⟨hm, hpm⟩)
          · exact ⟨Or.inl rfl, hb⟩
          · exact ⟨Or.inr hm, hpm⟩
        · rintro ⟨(rfl | hm), hpm⟩
          · exact Or.inl rfl
          · exact Or.inr ⟨hm, hpm⟩
      | false =>
        rw [if_neg (by simp)]
        simp only [hmem, List.mem_cons]
        constructor
        · rintro ⟨hm, hpm⟩
          exact ⟨Or.inr hm, hpm⟩
        · rintro ⟨(rfl | hm), hpm⟩
          · rw [hpm] at hb
            exact absurd hb (by simp)
          · exact ⟨hm, hpm⟩

-- ===========================================================================
-- Helper lemmas: the fixed season year
-- ===========================================================================

theorem dateRange_year {a b t : Int} (ha1 : 20089 ≤ a) (ha2 : a ≤ 20453)
    (hb1 : 20089 ≤ b) (hb2 : b ≤ 20453) (ht : t ∈ dateRange a b) :
    getFullYear t = 2025 := by
  obtain ⟨h1, h2⟩ := mem_dateRange ht
  exact (getFullYear_of_between (by omega) (by omega)).1

theorem scan_jsDate_bounds {w : Bool} {s : List Char} {q : Nat × Nat}
    (hscan : scanMonthDay w s = some q) (h2 : 1 ≤ q.2) (h3 : q.2 ≤ 31) :
    20089 ≤ jsDate 2025 (q.1 : Int) (q.2 : Int) ∧
    jsDate 2025 (q.1 : Int) (q.2 : Int) ≤ 20453 := by
  have h1 : q.1 < 12 := by
    obtain ⟨m, d⟩ := q
    exact scanMonthDay_month_lt hscan
  exact jsDate2025_bounds_int (by omega) (by omega) (by omega) (by omega)

/-- Every date produced from one fragment lies in 2025, provided every day
numeral extracted from the fragment is between 1 and 31. -/
theorem parseFragment_year {l : List Char}
    (H : ∀ n ∈ fragmentDayNums l, 1 ≤ n ∧ n ≤ 31) :
    ∀ t ∈ parseFragment l, getFullYear t = 2025 := by
  intro t ht
  unfold parseFragment at ht
  split at ht
  case isTrue hpipe =>
    have hpipe2 : '|' ∈ l := by simpa using hpipe
    dsimp only at ht
    split at ht
    case isFalse hne => simp at ht
    case isTrue hne =>
      split at ht
      case h_2 => simp at ht
      case h_1 sd ed hsd hed =>
        obtain ⟨q0, hscan0, rfl⟩ := Option.map_eq_some'.mp hsd
        obtain ⟨q1, hscan1, rfl⟩ := Option.map_eq_some'.mp hed
        have hne2 := hne
        have hs0 := hscan0
        have hs1 := hscan1
        simp only [List.getElem?_map] at hne2 hs0 hs1
        have hd0 := H q0.2 (by simp [fragmentDayNums, hpipe2, hne2, hs0, hs1])
        have hd1 := H q1.2 (by simp [fragmentDayNums, hpipe2, hne2, hs0, hs1])
        have hb0 := scan_jsDate_bounds hscan0 hd0.1 hd0.2
        have hb1 := scan_jsDate_bounds hscan1 hd1.1 hd1.2
        exact dateRange_year hb0.1 hb0.2 hb1.1 hb1.2 ht
  case isFalse hpipe =>
    have hpipe2 : '|' ∉ l := by simpa using hpipe
    split at ht
    case isTrue hdash =>
      have hdash2 : '-' ∈ l := by simpa using hdash
      split at ht
      case h_2 hnone => simp at ht
      case h_1 p hp =>
        split at ht
        case isFalse => simp at ht
        case isTrue hppos =>
          dsimp only at ht
          split at ht
          case h_2 hsdnone => simp at ht
          case h_1 sd hsd =>
            obtain ⟨q0, hscan0, rfl⟩ := Option.map_eq_some'.mp hsd
            have hd0 := H q0.2
              (by simp [fragmentDayNums, hpipe2, hdash2, hp, hppos, hscan0])
            have hb0 := scan_jsDate_bounds hscan0 hd0.1 hd0.2
            split at ht
            case h_1 ed hed =>
              obtain ⟨q1, hscan1, rfl⟩ := Option.map_eq_some'.mp hed
              have hd1 := H q1.2
                (by simp [fragmentDayNums, hpipe2, hdash2, hp, hppos, hscan0, hscan1])
              have hb1 := scan_jsDate_bounds hscan1 hd1.1 hd1.2
              exact dateRange_year hb0.1 hb0.2 hb1.1 hb1.2 ht
            case h_2 hednone =>
              have hscannone : scanMonthDay true (trimL (l.drop (p + 1))) = none := by
                cases hsc : scanMonthDay true (trimL (l.drop (p + 1))) with
                | none => rfl
                | some q =>
                  have : parseDateWithMonth (trimL (l.drop (p + 1))) =
                      some (jsDate 2025 (q.1 : Int) (q.2 : Int)) := by
                    rw [parseDateWithMonth, hsc]; rfl
                  rw [hednone] at this
                  exact Option.noConfusion this
              split at ht
              case h_2 => simp at ht
              case h_1 dv hdv =>
                have hdv1 := H dv
                  (by simp [fragmentDayNums, hpipe2, hdash2, hp, hppos, hscan0, hscannone, hdv])
                have hmo := getFullYear_of_between hb0.1 hb0.2
                have hb1 := @jsDate2025_bounds_int
                  (getMonth (jsDate 2025 (q0.1 : Int) (q0.2 : Int)))
                  ((dv : Int)) hmo.2.1 hmo.2.2 (by omega) (by omega)
                exact dateRange_year hb0.1 hb0.2 hb1.1 hb1.2 ht
    case isFalse hdash =>
      have hdash2 : '-' ∉ l := by simpa using hdash
      split at ht
      case h_2 => simp at ht
      case h_1 sd hsd =>
        obtain ⟨q0, hscan0, rfl⟩ := Option.map_eq_some'.mp hsd
        have hd0 := H q0.2 (by simp [fragmentDayNums, hpipe2, hdash2, hscan0])
        have hb0 := scan_jsDate_bounds hscan0 hd0.1 hd0.2
        simp only [List.mem_singleton] at ht
        subst ht
        exact (getFullYear_of_between hb0.1 hb0.2).1

theorem ltL_irrefl (l : List Char) : ltL l l = false := by
  induction l with
  | nil => rfl
  | cons a as ih => simp [ltL, lt_irrefl, ih]

theorem strLt_irrefl (a : String) : strLt a a = false := ltL_irrefl a.toList

-- ===========================================================================
-- Claim theorems
-- ===========================================================================

/-- C3 (counterexample): the claim "every calendar date returned by
`parseMarketDates` has year 2025, for every input string" is false: for the
input "Dec. 40" the parser returns exactly one date, and its year is 2026
(JS `new Date(2025, 11, 40)` normalises into January 2026). -/
theorem c3_overflow_counterexample :
    (parseMarketDates "Dec. 40").map getFullYear = [2026] := by decide

/-- C3 (amended): every calendar date returned by `parseMarketDates` has its
year equal to the fixed season-year constant 2025, provided every day
numeral the parser extracts from the input lies between 1 and 31; a larger
day numeral can roll the date into another year by JS date normalisation. -/
theorem c3_fixed_season_year (s : String)
    (H : ∀ n ∈ dayNumbers s, 1 ≤ n ∧ n ≤ 31) :
    ∀ t ∈ parseMarketDates s, getFullYear t = 2025 := by
  intro t ht
  unfold parseMarketDates at ht
  rw [List.mem_flatMap] at ht
  obtain ⟨frag, hfrag, htf⟩ := ht
  refine parseFragment_year (fun n hn => H n ?_) t htf
  unfold dayNumbers
  rw [List.mem_flatMap]
  exact ⟨frag, hfrag, hn⟩

theorem c3_fixed_season_year_witness :
    (∀ n ∈ dayNumbers "Nov. 28-Dec. 1, Dec. 13-14", 1 ≤ n ∧ n ≤ 31) ∧
    (∀ t ∈ parseMarketDates "Nov. 28-Dec. 1, Dec. 13-14", getFullYear t = 2025) :=
  ⟨by decide, c3_fixed_season_year "Nov. 28-Dec. 1, Dec. 13-14" (by decide)⟩

/-- C5: in the dash format the fragment is split at its last dash; the left
side must parse as month+day; the right side is parsed first as a full
month+day and, failing that, as a bare day number combined with the start
date's month; when both sides resolve every date from start to end inclusive
is emitted, and concretely `parseMarketDates "Nov. 28-Dec. 1"` yields exactly
Nov 28, Nov 29, Nov 30, Dec 1 of the season year 2025. -/
theorem c5_dash_cross_month :
    ((parseMarketDates "Nov. 28-Dec. 1").map
        (fun t => (getFullYear t, getMonth t, getDate t)) =
      [(2025, 10, 28), (2025, 10, 29), (2025, 10, 30), (2025, 11, 1)]) ∧
    (∀ (l : List Char) (p : Nat),
      l.contains '|' = false → l.contains '-' = true →
      lastIdxOf '-' l = some p → 0 < p →
      (∀ sd ed, parseDateWithMonth (trimL (l.take p)) = some sd →
        parseDateWithMonth (trimL (l.drop (p + 1))) = some ed →
        parseFragment l = dateRange sd ed) ∧
      (∀ sd dv, parseDateWithMonth (trimL (l.take p)) = some sd →
        parseDateWithMonth (trimL (l.drop (p + 1))) = none →
        firstDigitRun (trimL (l.drop (p + 1))) = some dv →
        parseFragment l = dateRange sd (jsDate 2025 (getMonth sd) (dv : Int))) ∧
      (parseDateWithMonth (trimL (l.take p)) = none → parseFragment l = [])) := by
  constructor
  · decide
  · intro l p hpipe hdash hp hppos
    refine ⟨?_, ?_, ?_⟩
    · intro sd ed hsd hed
      unfold parseFragment
      rw [if_neg (by rw [hpipe]; simp), if_pos hdash, hp]
      dsimp only
      rw [if_pos hppos]
      rw [hsd, hed]
    · intro sd dv hsd hed hdv
      unfold parseFragment
      rw [if_neg (by rw [hpipe]; simp), if_pos hdash, hp]
      dsimp only
      rw [if_pos hppos]
      rw [hsd, hed, hdv]
    · intro hsd
      unfold parseFragment
      rw [if_neg (by rw [hpipe]; simp), if_pos hdash, hp]
      dsimp only
      rw [if_pos hppos]
      rw [hsd]

theorem c5_dash_cross_month_witness :
    parseFragment ("Nov. 28-Dec. 1".toList) =
      dateRange (jsDate 2025 10 28) (jsDate 2025 11 1) :=
  ((c5_dash_cross_month.2 "Nov. 28-Dec. 1".toList 7 (by decide) (by decide)
    (by decide) (by decide)).1 (jsDate 2025 10 28) (jsDate 2025 11 1)
    (by decide) (by decide))

/-- C9: a reversed same-month dash range produces zero dates silently: when
the left side parses as month+day with the day valid for that month (its
`getMonth` is the parsed month), the right side only yields a bare day
numeral, and that numeral is smaller than the start day, the fragment emits
no dates — and no endpoint swap happens; concretely
`parseMarketDates "Dec. 14-13"` is empty. -/
theorem c9_reversed_range_empty :
    (∀ (l : List Char) (p : Nat) (q0 : Nat × Nat) (dv : Nat),
      l.contains '|' = false → l.contains '-' = true →
      lastIdxOf '-' l = some p → 0 < p →
      scanMonthDay true (trimL (l.take p)) = some q0 →
      scanMonthDay true (trimL (l.drop (p + 1))) = none →
      firstDigitRun (trimL (l.drop (p + 1))) = some dv →
      getMonth (jsDate 2025 (q0.1 : Int) (q0.2 : Int)) = (q0.1 : Int) →
      dv < q0.2 →
      parseFragment l = []) ∧
    (parseMarketDates "Dec. 14-13" = []) := by
  constructor
  · intro l p q0 dv hpipe hdash hp hppos hscan0 hscannone hdv hvalid hlt
    have hsd : parseDateWithMonth (trimL (l.take p)) =
        some (jsDate 2025 (q0.1 : Int) (q0.2 : Int)) := by
      rw [parseDateWithMonth, hscan0]
      rfl
    have hed : parseDateWithMonth (trimL (l.drop (p + 1))) = none := by
      rw [parseDateWithMonth, hscannone]
      rfl
    unfold parseFragment
    rw [if_neg (by rw [hpipe]; simp), if_pos hdash, hp]
    dsimp only
    rw [if_pos hppos]
    rw [hsd, hed, hdv]
    dsimp only
    rw [hvalid]
    apply dateRange_empty_of_lt
    have hsub := jsDate_day_sub 2025 (q0.1 : Int) (dv : Int) (q0.2 : Int)
    omega
  · decide

theorem c9_reversed_range_empty_witness :
    parseFragment ("Dec. 14-13".toList) = [] :=
  c9_reversed_range_empty.1 "Dec. 14-13".toList 7 (11, 14) 13 (by decide)
    (by decide) (by decide) (by decide) (by decide) (by decide) (by decide)
    (by decide) (by decide)

/-- C1 (counterexample): the claim "a record appears in the output of
`parseCSV` iff its row has ≥ 3 tokens, a non-blank name, and both
coordinate tokens parse successfully as floats" is false: the row
"Market A,0,1" meets all of those conditions (latitude "0" parses
successfully, to 0), yet `parseCSV` rejects it, because the source coerces
falsy coordinates to null (`parseFloat(values[1]) || null`). -/
theorem c1_zero_coordinate_counterexample :
    (3 ≤ (parseCSVLine "Market A,0,1").length ∧
     jsTrim (((parseCSVLine "Market A,0,1")[0]?).getD "") ≠ "" ∧
     parseFloat (((parseCSVLine "Market A,0,1")[1]?).getD "") ≠ JSNum.nan ∧
     parseFloat (((parseCSVLine "Market A,0,1")[2]?).getD "") ≠ JSNum.nan) ∧
    parseCSV "name,latitude,longitude\nMarket A,0,1" = [] := by
  exact ⟨by decide, by decide⟩

/-- C1 (amended): a record is produced from a data row iff the row has at
least 3 tokens, a non-blank name token, and both coordinate tokens parse to
truthy numbers (non-NaN and non-zero); all other field problems degrade to
defaults.  A record appears in `parseCSV`'s output iff some data row
produces it. -/
theorem c1_row_inclusion :
    (∀ line : String,
      (rowToMarket line).isSome = true ↔
        (3 ≤ (parseCSVLine line).length ∧
         jsTrim (((parseCSVLine line)[0]?).getD "") ≠ "" ∧
         truthy (parseFloat (((parseCSVLine line)[1]?).getD "")) = true ∧
         truthy (parseFloat (((parseCSVLine line)[2]?).getD "")) = true)) ∧
    (∀ (csv : String) (m : Market),
      m ∈ parseCSV csv ↔ ∃ line ∈ csvDataLines csv, rowToMarket line = some m) := by
  constructor
  · intro line
    unfold rowToMarket
    dsimp only
    split
    · rename_i hguard
      simp only [Option.isSome_none, Bool.false_eq_true, false_iff]
      rintro ⟨hA, hB, _, _⟩
      rcases hguard with hg | hg
      · omega
      · exact hB hg
    · rename_i hguard
      push_neg at hguard
      obtain ⟨hlen, hname⟩ := hguard
      split
      · rename_i htr
        simp only [Option.isSome_some, true_iff]
        exact ⟨by omega, hname, htr.1, htr.2⟩
      · rename_i htr
        simp only [Option.isSome_none, Bool.false_eq_true, false_iff]
        rintro ⟨_, _, hc, hd⟩
        exact htr ⟨hc, hd⟩
  · intro csv m
    unfold parseCSV
    rw [List.mem_filterMap]

theorem c1_row_inclusion_witness :
    (rowToMarket "Market A,39.7,-104.9").isSome = true :=
  (c1_row_inclusion.1 "Market A,39.7,-104.9").mpr (by decide)

/-- C6: a market record with an empty dates set passes every date filter
kind ("today", "tomorrow", "weekend") unconditionally. -/
theorem c6_empty_dates_always_open (m : Market) (st : SessionState) (f : String)
    (hd : m.dates = [])
    (hf : f = "today" ∨ f = "tomorrow" ∨ f = "weekend") :
    marketIsOpenOnDate m f st = some true := by
  unfold marketIsOpenOnDate
  rw [if_pos (by simp [hd])]

/-- C8: the city extractor is total: blank input gives "Unknown", an address
none of whose comma segments matches the state patterns gives "Unknown", and
on the spec's examples it gives "Denver", "Denver", "Unknown", "Unknown". -/
theorem c8_extract_city_total :
    (∀ a : String, jsTrim a = "" → extractCityFromAddress a = "Unknown") ∧
    (∀ a : String,
      (∀ p ∈ (splitOnChar ',' a.toList).map trimL,
        stateZipBoundary p = false ∧ stateZipPlain p = false ∧ bareState p = false) →
      extractCityFromAddress a = "Unknown") ∧
    extractCityFromAddress "123 Main St, Denver, CO 80211" = "Denver" ∧
    extractCityFromAddress "Civic Center Park, 101 W 14th Ave Pkwy, Denver, CO 80202" =
      "Denver" ∧
    extractCityFromAddress "" = "Unknown" ∧
    extractCityFromAddress "No State Info Here" = "Unknown" := by
  refine ⟨?_, ?_, by decide, by decide, by decide, by decide⟩
  · intro a h
    unfold extractCityFromAddress
    rw [if_pos (Or.inr h)]
  · intro a hall
    by_cases hblank : a = "" ∨ jsTrim a = ""
    · unfold extractCityFromAddress
      rw [if_pos hblank]
    · unfold extractCityFromAddress
      rw [if_neg hblank]
      dsimp only
      have hfind : ((splitOnChar ',' a.toList).map trimL).reverse.findIdx?
          (fun p => stateZipBoundary p || bareState p) = none := by
        rw [List.findIdx?_eq_none_iff]
        intro x hx
        obtain ⟨h1, _, h3⟩ := hall x (List.mem_reverse.mp hx)
        simp [h1, h3]
      rw [hfind]
      by_cases hlen : 2 ≤ ((splitOnChar ',' a.toList).map trimL).length
      · rw [if_pos hlen]
        cases hgp : ((splitOnChar ',' a.toList).map trimL)[
            ((splitOnChar ',' a.toList).map trimL).length - 1]? with
        | none =>
          rw [if_neg (by decide)]
          rfl
        | some lp =>
          have hlp : lp ∈ (splitOnChar ',' a.toList).map trimL := by
            obtain ⟨hlt, rfl⟩ := List.getElem?_eq_some_iff.mp hgp
            exact List.getElem_mem hlt
          obtain ⟨_, h2, h3⟩ := hall lp hlp
          rw [if_neg (by simp [h2, h3])]
          rfl
      · rw [if_neg hlen]
        rfl

theorem c8_extract_city_total_witness :
    extractCityFromAddress "   " = "Unknown" ∧
    extractCityFromAddress "abc def" = "Unknown" :=
  ⟨c8_extract_city_total.1 "   " (by decide),
   c8_extract_city_total.2.1 "abc def" (by decide)⟩

theorem c6_empty_dates_always_open_witness :
    marketIsOpenOnDate
      { name := "B", lat := JSNum.val 40 0, lon := JSNum.val (-105) 0,
        region := "Unknown", city := "Boulder", zipCode := "", address := "",
        date := "", cost := "Free", website := "", description := "", dates := [] }
      "weekend" (mkSession 20372) = some true :=
  c6_empty_dates_always_open _ (mkSession 20372) "weekend" rfl (Or.inr (Or.inr rfl))

-- ===========================================================================
-- Helper lemmas: totality of the date predicate on its intended domain
-- ===========================================================================

theorem marketIsOpenOnDate_total (m : Market) (st : SessionState) {f : String}
    (hf : f = "today" ∨ f = "tomorrow" ∨ f = "weekend") :
    (marketIsOpenOnDate m f st).isSome = true := by
  unfold marketIsOpenOnDate
  rcases hf with rfl | rfl | rfl <;>
    by_cases hd : m.dates.isEmpty = true <;>
    simp [hd]

theorem recordPassesFilters_eq_true (st : SessionState) (fs : FilterState) (m : Market)
    (hdf : fs.dateFilter = "" ∨ fs.dateFilter = "today" ∨ fs.dateFilter = "tomorrow" ∨
      fs.dateFilter = "weekend") :
    (recordPassesFilters st fs m = some true ↔
      (matchesSearch fs.search m = true ∧ matchesCity fs.city m = true ∧
        (fs.dateFilter = "" ∨ marketIsOpenOnDate m fs.dateFilter st = some true))) := by
  unfold recordPassesFilters
  by_cases h0 : fs.dateFilter = ""
  · rw [if_neg (by simp [h0])]
    simp [h0, Bool.and_eq_true]
  · rw [if_pos h0]
    have ht : (marketIsOpenOnDate m fs.dateFilter st).isSome = true :=
      marketIsOpenOnDate_total m st (by tauto)
    obtain ⟨b, hb⟩ := Option.isSome_iff_exists.mp ht
    rw [hb]
    simp only [h0, hb, Option.map_some', Option.some.injEq, Bool.and_eq_true,
      false_or, Option.some.injEq]
    exact and_assoc


/-- C2: filtering is conjunctive: for every session state, filter state with
a well-formed date-filter kind, sort state and record list, `applyFilters`
succeeds and a record is in the recomputed view iff it is in the input and
passes the search filter AND the city filter AND the date filter.  In
particular (spec scenario): with cityFilter "Denver" and dateFilter "today"
on Dec 13 2025, record A (Denver, open Dec 13) is kept and record B
(Boulder, empty dates) is excluded by city even though its empty dates set
passes the date filter. -/
theorem c2_conjunctive_filtering :
    (∀ (st : SessionState) (fs : FilterState) (col : String) (asc : Bool)
        (ms : List Market),
      (fs.dateFilter = "" ∨ fs.dateFilter = "today" ∨ fs.dateFilter = "tomorrow" ∨
        fs.dateFilter = "weekend") →
      ∃ v, applyFilters st fs col asc ms = some v ∧
        ∀ m, m ∈ v ↔ (m ∈ ms ∧ matchesSearch fs.search m = true ∧
          matchesCity fs.city m = true ∧
          (fs.dateFilter = "" ∨ marketIsOpenOnDate m fs.dateFilter st = some true))) ∧
    (applyFilters (mkSession (jsDate 2025 11 13))
        { search := "", city := "Denver", dateFilter := "today" } "name" true
        [marketA, marketB] = some [marketA]) := by
  constructor
  · intro st fs col asc ms hdf
    have hopen : ∀ x ∈ ms, (recordPassesFilters st fs x).isSome = true := by
      intro x _
      unfold recordPassesFilters
      rcases hdf with h | h
      · rw [if_neg (by simp [h])]
        simp
      · rw [if_pos (by rcases h with h | h | h <;> rw [h] <;> decide)]
        have ht := marketIsOpenOnDate_total x st h
        obtain ⟨b, hb⟩ := Option.isSome_iff_exists.mp ht
        rw [hb]
        rfl
    obtain ⟨v0, hv0, hmem0⟩ := filterFallible_total hopen
    refine ⟨sortFilteredMarkets col asc v0, ?_, ?_⟩
    · unfold applyFilters
      rw [hv0]
      rfl
    · intro m
      unfold sortFilteredMarkets
      rw [mem_insertionSort, hmem0 m, recordPassesFilters_eq_true st fs m hdf]
  · decide

theorem c2_conjunctive_filtering_witness :
    ∃ v, applyFilters (mkSession (jsDate 2025 11 13))
        { search := "", city := "Denver", dateFilter := "today" } "name" true
        [marketA, marketB] = some v ∧
      ∀ m, m ∈ v ↔ (m ∈ [marketA, marketB] ∧ matchesSearch "" m = true ∧
        matchesCity "Denver" m = true ∧
        ("today" = "" ∨ marketIsOpenOnDate m "today" (mkSession (jsDate 2025 11 13)) =
          some true)) :=
  c2_conjunctive_filtering.1 (mkSession (jsDate 2025 11 13))
    { search := "", city := "Denver", dateFilter := "today" } "name" true
    [marketA, marketB] (Or.inr (Or.inl rfl))

/-- C4: the weekend window starts at the next Saturday: the number of days
added to "today" is between 1 and 7, always lands on a Saturday, and is
exactly 7 when today is already a Saturday; the window end is one day after
the start; and a record with non-empty dates passes the "weekend" filter iff
some date in its dates set equals (by calendar year/month/day) the Saturday
or the Sunday of that window. -/
theorem c4_weekend_window :
    (∀ t : Int, getDay t = 6 → (calculateWeekendDates t).1 = t + 7) ∧
    (∀ t : Int, 1 ≤ (calculateWeekendDates t).1 - t ∧
      (calculateWeekendDates t).1 - t ≤ 7 ∧
      getDay ((calculateWeekendDates t).1) = 6 ∧
      (calculateWeekendDates t).2 = (calculateWeekendDates t).1 + 1) ∧
    (∀ (t : Int) (m : Market), m.dates ≠ [] →
      (marketIsOpenOnDate m "weekend" (mkSession t) = some true ↔
        ∃ md ∈ m.dates, sameYMD md ((calculateWeekendDates t).1) = true ∨
          sameYMD md ((calculateWeekendDates t).1 + 1) = true)) := by
  refine ⟨?_, ?_, ?_⟩
  · intro t h
    unfold calculateWeekendDates
    rw [h]
    norm_num
  · intro t
    unfold calculateWeekendDates getDay
    dsimp only
    split <;> omega
  · intro t m hne
    unfold marketIsOpenOnDate
    rw [if_neg (by simpa [List.isEmpty_iff] using hne), if_neg (by decide),
      if_neg (by decide), if_pos rfl]
    have hse : (mkSession t).weekendEnd = (mkSession t).weekendStart + 1 := rfl
    rw [hse, dateRange_adjacent]
    simp only [List.any_cons, List.any_nil, Bool.or_false, Bool.or_eq_true,
      List.any_eq_true, Option.some.injEq]
    constructor
    · rintro (⟨md, hmd, hs⟩ | ⟨md, hmd, hs⟩)
      · exact ⟨md, hmd, Or.inl hs⟩
      · exact ⟨md, hmd, Or.inr hs⟩
    · rintro ⟨md, hmd, hs | hs⟩
      · exact Or.inl ⟨md, hmd, hs⟩
      · exact Or.inr ⟨md, hmd, hs⟩

theorem c4_weekend_window_witness :
    (calculateWeekendDates 20372).1 = 20372 + 7 ∧
    getDay ((calculateWeekendDates 12345).1) = 6 :=
  ⟨c4_weekend_window.1 20372 (by decide), (c4_weekend_window.2.1 12345).2.2.1⟩

/-- C7: sorting of the current view is stable: for each of the three sort
columns ("name", "date", "city"), ascending or descending, the records whose
lowercased sort key equals any fixed value appear in the sorted output in
exactly their input order (their filtered subsequence is unchanged). -/
theorem c7_sort_stability (asc : Bool) (k : String) (l : List Market) :
    ((sortFilteredMarkets "name" asc l).filter (fun m => lowerStr m.name == k) =
      l.filter (fun m => lowerStr m.name == k)) ∧
    ((sortFilteredMarkets "date" asc l).filter (fun m => lowerStr m.date == k) =
      l.filter (fun m => lowerStr m.date == k)) ∧
    ((sortFilteredMarkets "city" asc l).filter (fun m => lowerStr m.city == k) =
      l.filter (fun m => lowerStr m.city == k)) := by
  refine ⟨?_, ?_, ?_⟩
  · apply filter_insertionSort
    intro a b ha hb
    have ha2 : lowerStr a.name = k := by simpa using ha
    have hb2 : lowerStr b.name = k := by simpa using hb
    simp [compareMarkets, sortKeyVal, ha2, hb2, strLt_irrefl]
  · apply filter_insertionSort
    intro a b ha hb
    have ha2 : lowerStr a.date = k := by simpa using ha
    have hb2 : lowerStr b.date = k := by simpa using hb
    simp [compareMarkets, sortKeyVal, ha2, hb2, strLt_irrefl]
  · apply filter_insertionSort
    intro a b ha hb
    have ha2 : lowerStr a.city = k := by simpa using ha
    have hb2 : lowerStr b.city = k := by simpa using hb
    simp [compareMarkets, sortKeyVal, ha2, hb2, strLt_irrefl]

/-- C10: the date-membership predicate is total exactly on the intended
filter kinds: for "today"/"tomorrow"/"weekend" it always returns a value;
for any other non-empty kind it faults (returns the thrown-error `none`) on
every record with a non-empty dates set; and the empty kind never reaches
the predicate — `applyFilters` with an empty date filter always succeeds. -/
theorem c10_date_filter_domain :
    (∀ f : String, (f = "today" ∨ f = "tomorrow" ∨ f = "weekend") →
      ∀ (m : Market) (st : SessionState), (marketIsOpenOnDate m f st).isSome = true) ∧
    (∀ f : String, f ≠ "today" → f ≠ "tomorrow" → f ≠ "weekend" → f ≠ "" →
      ∀ (m : Market) (st : SessionState), m.dates ≠ [] →
        marketIsOpenOnDate m f st = none) ∧
    (∀ (st : SessionState) (fs : FilterState) (col : String) (asc : Bool)
        (ms : List Market), fs.dateFilter = "" →
      (applyFilters st fs col asc ms).isSome = true) := by
  refine ⟨?_, ?_, ?_⟩
  · intro f hf m st
    exact marketIsOpenOnDate_total m st hf
  · intro f h1 h2 h3 _ m st hd
    unfold marketIsOpenOnDate
    rw [if_neg (by simpa [List.isEmpty_iff] using hd), if_neg h1, if_neg h2, if_neg h3]
  · intro st fs col asc ms h0
    have hopen : ∀ x ∈ ms, (recordPassesFilters st fs x).isSome = true := by
      intro x _
      unfold recordPassesFilters
      rw [if_neg (by simp [h0])]
      rfl
    obtain ⟨v, hv, _⟩ := filterFallible_total hopen
    unfold applyFilters
    rw [hv]
    rfl

theorem c10_date_filter_domain_witness :
    (marketIsOpenOnDate marketA "today" (mkSession 20372)).isSome = true ∧
    marketIsOpenOnDate marketA "next-week" (mkSession 20372) = none :=
  ⟨c10_date_filter_domain.1 "today" (Or.inl rfl) marketA (mkSession 20372),
   c10_date_filter_domain.2.1 "next-week" (by decide) (by decide) (by decide)
     (by decide) marketA (mkSession 20372) (by decide)⟩
